import Mathlib

/-
Verification of the bignum safe-wrapper layer of rust-openssl
(`src/bn/mod.rs`), shallowly embedded in Lean.

The wrapper bridges a C-style bignum library to a result-returning API.
The native side (`ffi::BN_*`) is outside the repository; those primitives
are modelled from the specification, each marked `Modelled from the spec:`.
The wrapper logic itself — the `with_ctx!`, `with_bn!` and `with_bn_in_ctx!`
macros, every `checked_*` method, `negate`, `abs_cmp`, `num_bits`,
`num_bytes`, `to_vec`, `new_from_slice`, `to_dec_str`, `one`, `zero` — is
translated directly from the source.

Fallible native calls are driven by an oracle (`World`) that decides the
success of each successive allocation and primitive call, with a counter
state (`St`) threaded explicitly; this makes every exit path of the macro
expansions a case of a total function.
-/

namespace BnWrapper

/-- The native BIGNUM value: a sign flag (`neg`, as read by `is_negative`
through `(*self.raw()).neg == 1`) and a magnitude. -/
structure BIGNUM where
  neg : Bool
  mag : Nat
deriving DecidableEq

/-- The integer value represented by a BIGNUM. -/
def BIGNUM.val (b : BIGNUM) : Int :=
  if b.neg then -(b.mag : Int) else (b.mag : Int)

/-- The canonical BIGNUM for an integer (zero is non-negative). -/
def BIGNUM.ofInt (i : Int) : BIGNUM :=
  ⟨decide (i < 0), i.natAbs⟩

/-- Modelled from the spec: the error snapshot captured from the native
error queue at the failure site (`ssl::error::SslError`); opaque payload. -/
structure SslError where
  snap : Unit
deriving DecidableEq

/-- Translation of `SslError::get()`: capture the current error state. -/
def SslError.get : SslError := ⟨()⟩

/-- Oracle deciding the success of each successive native call: `bnOk i`
is the success of the i-th `BN_new`, `ctxOk i` of the i-th `BN_CTX_new`,
`primOk i` of the i-th other fallible primitive; `randVal i` is the
magnitude produced by a random primitive at step i. -/
structure World where
  bnOk : Nat → Bool
  ctxOk : Nat → Bool
  primOk : Nat → Bool
  randVal : Nat → Nat

/-- Native-side counters threaded through a computation: next index for
each oracle, plus scratch-context accounting (`ctxLive` contexts currently
allocated and unreleased, `ctxAlloc` total successful `BN_CTX_new` calls,
`ctxFreeCount` total `BN_CTX_free` calls). -/
structure St where
  bnNext : Nat
  ctxNext : Nat
  primNext : Nat
  ctxLive : Nat
  ctxAlloc : Nat
  ctxFreeCount : Nat
deriving DecidableEq

/-- The initial counter state. -/
def St.init : St := ⟨0, 0, 0, 0, 0, 0⟩

/-- Modelled from the spec: `BN_CTX_new` acquires a fresh scratch context
or reports failure (null); success is decided by the oracle. -/
def BN_CTX_new (w : World) (s : St) : Bool × St :=
  if w.ctxOk s.ctxNext then
    (true, { s with ctxNext := s.ctxNext + 1, ctxLive := s.ctxLive + 1,
                    ctxAlloc := s.ctxAlloc + 1 })
  else
    (false, { s with ctxNext := s.ctxNext + 1 })

/-- Modelled from the spec: `BN_CTX_free` releases one scratch context. -/
def BN_CTX_free (s : St) : St :=
  { s with ctxLive := s.ctxLive - 1, ctxFreeCount := s.ctxFreeCount + 1 }

/-- Modelled from the spec: `BN_new` allocates a fresh bignum valued zero,
or reports failure (null); success is decided by the oracle. -/
def BN_new (w : World) (s : St) : Option BIGNUM × St :=
  if w.bnOk s.bnNext then
    (some ⟨false, 0⟩, { s with bnNext := s.bnNext + 1 })
  else
    (none, { s with bnNext := s.bnNext + 1 })

/-- One step of a generic fallible primitive: consumes one `primOk` oracle
entry and reports its success flag. -/
def primStep (w : World) (s : St) : Bool × St :=
  (w.primOk s.primNext, { s with primNext := s.primNext + 1 })

/-- Translation of `BigNum::new()`: `BN_new`, null mapped to an error
snapshot. -/
def BigNum.new (w : World) (s : St) : Except SslError BIGNUM × St :=
  match BN_new w s with
  | (some b, s1) => (Except.ok b, s1)
  | (none, s1) => (Except.error SslError.get, s1)

/-- Translation of the `with_ctx!` macro: acquire a scratch context (error
snapshot if that fails, body not run), run the body, release the context,
propagate the body's result. -/
def with_ctx {α : Type} (w : World) (s : St)
    (action : St → Except SslError α × St) : Except SslError α × St :=
  match BN_CTX_new w s with
  | (true, s1) =>
      let r := action s1
      (r.1, BN_CTX_free r.2)
  | (false, s1) => (Except.error SslError.get, s1)

/-- Translation of the `with_bn!` macro: allocate a destination bignum,
run the body (which returns a success flag and the value it wrote into the
destination), yield the destination on success and an error snapshot
otherwise. -/
def with_bn (w : World) (s : St)
    (action : BIGNUM → St → (Bool × BIGNUM) × St) : Except SslError BIGNUM × St :=
  match BigNum.new w s with
  | (Except.ok name, s1) =>
      let r := action name s1
      if r.1.1 then (Except.ok r.1.2, r.2) else (Except.error SslError.get, r.2)
  | (Except.error err, s1) => (Except.error err, s1)

/-- Translation of the `with_bn_in_ctx!` macro: allocate a destination
bignum, then a scratch context (error snapshot if that fails), run the
body, release the context on both the body-success and body-failure
branches, and yield destination or error snapshot. -/
def with_bn_in_ctx (w : World) (s : St)
    (action : BIGNUM → St → (Bool × BIGNUM) × St) : Except SslError BIGNUM × St :=
  match BigNum.new w s with
  | (Except.ok name, s1) =>
      match BN_CTX_new w s1 with
      | (true, s2) =>
          let r := action name s2
          let out := if r.1.1 then Except.ok r.1.2 else Except.error SslError.get
          (out, BN_CTX_free r.2)
      | (false, s2) => (Except.error SslError.get, s2)
  | (Except.error err, s1) => (Except.error err, s1)

/-- Modelled from the spec: `BN_num_bits` returns the number of significant
bits of the magnitude (computed by repeated halving); zero returns zero. -/
def BN_num_bits (n : Nat) : Nat :=
  if n = 0 then 0 else BN_num_bits (n / 2) + 1
decreasing_by exact Nat.div_lt_self (Nat.pos_of_ne_zero (by assumption)) (by decide)

/-- Translation of `BigNum::num_bits`. -/
def BIGNUM.num_bits (b : BIGNUM) : Nat := BN_num_bits b.mag

/-- Translation of `BigNum::num_bytes`: `(self.num_bits() + 7) / 8`. -/
def BIGNUM.num_bytes (b : BIGNUM) : Nat := (b.num_bits + 7) / 8

/-- Modelled from the spec: `BN_bn2bin` writes the magnitude as unsigned
big-endian bytes of minimal length (`BN_num_bytes` bytes, none for zero). -/
def bn2bin (n : Nat) : List Nat :=
  if n = 0 then [] else bn2bin (n / 256) ++ [n % 256]
decreasing_by exact Nat.div_lt_self (Nat.pos_of_ne_zero (by assumption)) (by decide)

/-- Modelled from the spec: `BN_bin2bn` reads an unsigned big-endian byte
sequence into a non-negative bignum; empty input yields zero. -/
def bin2bn (l : List Nat) : Nat :=
  l.foldl (fun acc b => acc * 256 + b) 0

/-- Translation of `BigNum::to_vec`: a buffer of `num_bytes` bytes filled
by `BN_bn2bin` (sign discarded). -/
def BIGNUM.to_vec (b : BIGNUM) : List Nat := bn2bin b.mag

/-- Translation of `BigNum::new_from_slice`: `BN_new`, then `BN_bin2bn`
(which may itself fail to allocate); null at either step is an error. -/
def new_from_slice (w : World) (s : St) (l : List Nat) :
    Except SslError BIGNUM × St :=
  match BN_new w s with
  | (none, s1) => (Except.error SslError.get, s1)
  | (some _, s1) =>
      match primStep w s1 with
      | (true, s2) => (Except.ok ⟨false, bin2bn l⟩, s2)
      | (false, s2) => (Except.error SslError.get, s2)

/-- Translation of `BigNum::new_from`: `BN_new`, then `BN_set_word`;
failure of either is an error. -/
def new_from (w : World) (s : St) (n : Nat) : Except SslError BIGNUM × St :=
  match BN_new w s with
  | (none, s1) => (Except.error SslError.get, s1)
  | (some _, s1) =>
      match primStep w s1 with
      | (true, s2) => (Except.ok ⟨false, n⟩, s2)
      | (false, s2) => (Except.error SslError.get, s2)

/-- Modelled from the spec: `BN_set_negative` sets the sign flag; a zero
magnitude remains non-negative. -/
def BN_set_negative (b : BIGNUM) (n : Bool) : BIGNUM :=
  if b.mag = 0 then { b with neg := false } else { b with neg := n }

/-- Translation of `BigNum::is_negative`: reads the native sign flag. -/
def BIGNUM.is_negative (b : BIGNUM) : Bool := b.neg

/-- Translation of `BigNum::negate`:
`BN_set_negative(self.raw(), !self.is_negative())`. -/
def BIGNUM.negate (b : BIGNUM) : BIGNUM :=
  BN_set_negative b (!b.is_negative)

/-- Modelled from the spec: `BN_add` computes `a + b`; may fail only for
allocation reasons (oracle). -/
def BN_add (w : World) (s : St) (a b : Int) : (Bool × Int) × St :=
  match primStep w s with
  | (ok, s1) => ((ok, a + b), s1)

/-- Modelled from the spec: `BN_mul` computes `a * b`; may fail only for
allocation reasons (oracle). -/
def BN_mul (w : World) (s : St) (a b : Int) : (Bool × Int) × St :=
  match primStep w s with
  | (ok, s1) => ((ok, a * b), s1)

/-- Modelled from the spec: `BN_div` computes the quotient (rounded toward
zero) and the remainder (sign of the dividend); it fails when the divisor
is zero, and may also fail for allocation reasons (oracle). -/
def BN_div_prim (w : World) (s : St) (a b : Int) : (Bool × Int × Int) × St :=
  match primStep w s with
  | (ok, s1) =>
      if b = 0 then ((false, 0, 0), s1)
      else ((ok, a.tdiv b, a.tmod b), s1)

/-- Modelled from the spec: `BN_mod_inverse` returns the multiplicative
inverse of `a` modulo `n` when `gcd(a, n) = 1` (the canonical
representative, computed from the extended gcd), and null otherwise. -/
def BN_mod_inverse (a n : Int) : Option Int :=
  if Int.gcd a n = 1 then some (Int.gcdA a n % n) else none

/-- Modelled from the spec: `BN_mod_mul` computes `a * b mod n`, reduced to
the canonical representative; may fail for allocation reasons (oracle). -/
def BN_mod_mul (w : World) (s : St) (a b n : Int) : (Bool × Int) × St :=
  match primStep w s with
  | (ok, s1) => ((ok, a * b % n), s1)

/-- Translation of `BigNum::checked_add` (built on `with_bn!`). -/
def checked_add (w : World) (s : St) (a b : BIGNUM) : Except SslError BIGNUM × St :=
  with_bn w s (fun r st =>
    match BN_add w st a.val b.val with
    | ((ok, v), st1) => ((ok, if ok then BIGNUM.ofInt v else r), st1))

/-- Translation of `BigNum::checked_mul` (built on `with_bn_in_ctx!`). -/
def checked_mul (w : World) (s : St) (a b : BIGNUM) : Except SslError BIGNUM × St :=
  with_bn_in_ctx w s (fun r st =>
    match BN_mul w st a.val b.val with
    | ((ok, v), st1) => ((ok, if ok then BIGNUM.ofInt v else r), st1))

/-- Translation of `BigNum::checked_div`: `BN_div` with a null remainder
out-parameter, built on `with_bn_in_ctx!`. -/
def checked_div (w : World) (s : St) (a b : BIGNUM) : Except SslError BIGNUM × St :=
  with_bn_in_ctx w s (fun r st =>
    match BN_div_prim w st a.val b.val with
    | ((ok, q, _), st1) => ((ok, if ok then BIGNUM.ofInt q else r), st1))

/-- Translation of `BigNum::checked_mod`: `BN_div` with a null quotient
out-parameter, built on `with_bn_in_ctx!`. -/
def checked_mod (w : World) (s : St) (a b : BIGNUM) : Except SslError BIGNUM × St :=
  with_bn_in_ctx w s (fun r st =>
    match BN_div_prim w st a.val b.val with
    | ((ok, _, m), st1) => ((ok, if ok then BIGNUM.ofInt m else r), st1))

/-- Translation of `BigNum::checked_mod_inv`: `BN_mod_inverse`, null mapped
to failure, built on `with_bn_in_ctx!`. -/
def checked_mod_inv (w : World) (s : St) (a n : BIGNUM) : Except SslError BIGNUM × St :=
  with_bn_in_ctx w s (fun r st =>
    match BN_mod_inverse a.val n.val with
    | some i => ((true, BIGNUM.ofInt i), st)
    | none => ((false, r), st))

/-- Translation of `BigNum::checked_mod_mul` (built on `with_bn_in_ctx!`). -/
def checked_mod_mul (w : World) (s : St) (a b n : BIGNUM) : Except SslError BIGNUM × St :=
  with_bn_in_ctx w s (fun r st =>
    match BN_mod_mul w st a.val b.val n.val with
    | ((ok, v), st1) => ((ok, if ok then BIGNUM.ofInt v else r), st1))

/-- Translation of `BigNum::checked_gcd`: `BN_gcd`, modelled from the spec
as the non-negative gcd, which may fail for allocation reasons (oracle). -/
def checked_gcd (w : World) (s : St) (a b : BIGNUM) : Except SslError BIGNUM × St :=
  with_bn_in_ctx w s (fun r st =>
    match primStep w st with
    | (ok, st1) => ((ok, if ok then BIGNUM.ofInt (Int.gcd a.val b.val) else r), st1))

/-- Translation of the `RNGProperty` enum: the top-bit constraint on a
freshly generated random integer. -/
inductive RNGProperty where
  | MsbMaybeZero
  | MsbOne
  | TwoMsbOne
deriving DecidableEq

/-- Modelled from the spec: `BN_rand` fills the destination with a fresh
random value (abstracted through the oracle); called without a scratch
context. -/
def BN_rand (w : World) (s : St) (_bits : Int) (_prop : RNGProperty)
    (_odd : Bool) : (Bool × BIGNUM) × St :=
  match primStep w s with
  | (ok, s1) => ((ok, ⟨false, w.randVal s.primNext⟩), s1)

/-- Modelled from the spec: `BN_pseudo_rand`, same contract as `BN_rand`
with non-cryptographic quality; called without a scratch context. -/
def BN_pseudo_rand (w : World) (s : St) (_bits : Int) (_prop : RNGProperty)
    (_odd : Bool) : (Bool × BIGNUM) × St :=
  match primStep w s with
  | (ok, s1) => ((ok, ⟨false, w.randVal s.primNext⟩), s1)

/-- Modelled from the spec: `BN_rand_range` samples uniformly from
`[0, n)` (abstracted through the oracle); called without a scratch
context. -/
def BN_rand_range (w : World) (s : St) (n : BIGNUM) : (Bool × BIGNUM) × St :=
  match primStep w s with
  | (ok, s1) => ((ok, ⟨false, w.randVal s.primNext % (max n.mag 1)⟩), s1)

/-- Modelled from the spec: `BN_pseudo_rand_range`, same contract as
`BN_rand_range` with non-cryptographic quality. -/
def BN_pseudo_rand_range (w : World) (s : St) (n : BIGNUM) : (Bool × BIGNUM) × St :=
  match primStep w s with
  | (ok, s1) => ((ok, ⟨false, w.randVal s.primNext % (max n.mag 1)⟩), s1)

/-- Translation of `BigNum::checked_new_random`: built on
`with_bn_in_ctx!` although `BN_rand` never touches the context. -/
def checked_new_random (w : World) (s : St) (bits : Int) (prop : RNGProperty)
    (odd : Bool) : Except SslError BIGNUM × St :=
  with_bn_in_ctx w s (fun r st =>
    match BN_rand w st bits prop odd with
    | ((ok, v), st1) => ((ok, if ok then v else r), st1))

/-- Translation of `BigNum::checked_new_pseudo_random`: built on
`with_bn_in_ctx!` although `BN_pseudo_rand` never touches the context. -/
def checked_new_pseudo_random (w : World) (s : St) (bits : Int)
    (prop : RNGProperty) (odd : Bool) : Except SslError BIGNUM × St :=
  with_bn_in_ctx w s (fun r st =>
    match BN_pseudo_rand w st bits prop odd with
    | ((ok, v), st1) => ((ok, if ok then v else r), st1))

/-- Translation of `BigNum::checked_rand_in_range`: built on
`with_bn_in_ctx!` although `BN_rand_range` never touches the context. -/
def checked_rand_in_range (w : World) (s : St) (n : BIGNUM) :
    Except SslError BIGNUM × St :=
  with_bn_in_ctx w s (fun r st =>
    match BN_rand_range w st n with
    | ((ok, v), st1) => ((ok, if ok then v else r), st1))

/-- Translation of `BigNum::checked_pseudo_rand_in_range`: built on
`with_bn_in_ctx!` although `BN_pseudo_rand_range` never touches the
context. -/
def checked_pseudo_rand_in_range (w : World) (s : St) (n : BIGNUM) :
    Except SslError BIGNUM × St :=
  with_bn_in_ctx w s (fun r st =>
    match BN_pseudo_rand_range w st n with
    | ((ok, v), st1) => ((ok, if ok then v else r), st1))

/-- Outcome of a computation that may abort the process: either a value or
a panic (an `assert!` failure or an `unwrap` of an error). -/
inductive Outcome (α : Type) where
  | ok (a : α)
  | panicked
deriving DecidableEq

/-- The canonical signed decimal rendering of a BIGNUM. -/
def decRepr (b : BIGNUM) : String :=
  (if b.neg && decide (b.mag ≠ 0) then "-" else "") ++ Nat.repr b.mag

/-- Modelled from the spec: `BN_bn2dec` produces the canonical signed
decimal string, or null on failure (oracle). -/
def BN_bn2dec (w : World) (s : St) (b : BIGNUM) : Option String × St :=
  match primStep w s with
  | (true, s1) => (some (decRepr b), s1)
  | (false, s1) => (none, s1)

/-- Translation of `BigNum::to_dec_str`: calls `BN_bn2dec`, then
`assert!(!buf.is_null())` — a null buffer aborts the process. -/
def to_dec_str (w : World) (s : St) (b : BIGNUM) : Outcome String × St :=
  match BN_bn2dec w s b with
  | (some str, s1) => (Outcome.ok str, s1)
  | (none, s1) => (Outcome.panicked, s1)

/-- Translation of `One::one` for `BigNum`:
`BigNum::new_from(1).unwrap()` — an error aborts the process. -/
def one (w : World) (s : St) : Outcome BIGNUM × St :=
  match new_from w s 1 with
  | (Except.ok b, s1) => (Outcome.ok b, s1)
  | (Except.error _, s1) => (Outcome.panicked, s1)

/-- Translation of `Zero::zero` for `BigNum`:
`BigNum::new_from(0).unwrap()` — an error aborts the process. -/
def zero (w : World) (s : St) : Outcome BIGNUM × St :=
  match new_from w s 0 with
  | (Except.ok b, s1) => (Outcome.ok b, s1)
  | (Except.error _, s1) => (Outcome.panicked, s1)

/-- A heap of native bignum handles, for tracking ownership transfer:
index = handle, `none` = freed. -/
def Heap := List (Option BIGNUM)

/-- Reads the bignum behind a live handle (freed or dangling handles read
as zero; the operations proved about never dereference those). -/
def Heap.read (h : Heap) (i : Nat) : BIGNUM :=
  ((List.get? h i).getD none).getD ⟨false, 0⟩

/-- Modelled from the spec: `BN_clear_free` scrubs and releases a handle;
this is what `Drop for BigNum` runs when an owning `BigNum` dies. -/
def Heap.clearFree (h : Heap) (i : Nat) : Heap :=
  List.set h i none

/-- Modelled from the spec: `BN_ucmp` compares magnitudes, ignoring sign;
negative, zero or positive in the C convention. -/
def BN_ucmp (a b : BIGNUM) : Int :=
  if a.mag < b.mag then -1 else if b.mag < a.mag then 1 else 0

/-- Translation of `BigNum::abs_cmp(&self, oth: BigNum)`: `self` is a
shared reference, but `oth` is taken BY VALUE, so `Drop` clear-frees the
operand's handle when the call returns. -/
def abs_cmp (h : Heap) (selfI othI : Nat) : Ordering × Heap :=
  let res := BN_ucmp (h.read selfI) (h.read othI)
  let ord := if res < 0 then Ordering.lt
             else if res > 0 then Ordering.gt else Ordering.eq
  (ord, h.clearFree othI)

/-- Modelled from the spec: `BN_cmp` compares signed values. -/
def BN_cmp (a b : BIGNUM) : Int :=
  if a.val < b.val then -1 else if b.val < a.val then 1 else 0

/-- Translation of `PartialEq::eq for BigNum`, which takes BOTH operands
by shared reference (`&self`, `oth: &BigNum`): no handle is freed. -/
def bigNumEq (h : Heap) (selfI othI : Nat) : Bool × Heap :=
  (decide (BN_cmp (h.read selfI) (h.read othI) = 0), h)

/-- Concrete worlds used by witnesses: every native call succeeds. -/
def allOkWorld : World := ⟨fun _ => true, fun _ => true, fun _ => true, fun _ => 0⟩

/-- Concrete world used by counterexamples: every native call fails. -/
def allFailWorld : World := ⟨fun _ => false, fun _ => false, fun _ => false, fun _ => 0⟩

/-- Concrete world where only scratch-context allocation fails. -/
def noCtxWorld : World := ⟨fun _ => true, fun _ => false, fun _ => true, fun _ => 0⟩

/-- A `with_ctx!` body that does not itself touch scratch-context
accounting (true of every body in the source: they call only arithmetic
primitives on the supplied context). -/
def CtxNeutral {α : Type} (action : St → Except SslError α × St) : Prop :=
  ∀ st, (action st).2.ctxLive = st.ctxLive ∧
        (action st).2.ctxAlloc = st.ctxAlloc ∧
        (action st).2.ctxFreeCount = st.ctxFreeCount

/-- A `with_bn_in_ctx!` body that does not itself touch scratch-context
accounting. -/
def CtxNeutralBn (action : BIGNUM → St → (Bool × BIGNUM) × St) : Prop :=
  ∀ b st, (action b st).2.ctxLive = st.ctxLive ∧
          (action b st).2.ctxAlloc = st.ctxAlloc ∧
          (action b st).2.ctxFreeCount = st.ctxFreeCount

theorem BIGNUM.val_ofInt (i : Int) : (BIGNUM.ofInt i).val = i := by
  simp only [BIGNUM.ofInt, BIGNUM.val, decide_eq_true_eq]
  split <;> omega

theorem BN_num_bits_eq_log2 (n : Nat) (h : n ≠ 0) :
    BN_num_bits n = Nat.log2 n + 1 := by
  induction n using Nat.strong_induction_on with
  | _ n ih =>
    rw [BN_num_bits]
    simp only [h, if_false]
    by_cases h2 : n / 2 = 0
    · have h1 : n = 1 := by omega
      subst h1
      rw [BN_num_bits]
      simp [Nat.log2]
    · have hn2 : 2 ≤ n := by omega
      rw [ih (n / 2) (Nat.div_lt_self (by omega) (by decide)) h2]
      conv_rhs => rw [Nat.log2]
      simp [hn2]

theorem BN_num_bits_div256 (n : Nat) (h : 256 ≤ n) :
    BN_num_bits n = BN_num_bits (n / 256) + 8 := by
  have e : ∀ m, m ≠ 0 → BN_num_bits m = BN_num_bits (m / 2) + 1 := by
    intro m hm
    rw [BN_num_bits]
    simp [hm]
  rw [e n (by omega), e (n / 2) (by omega), e (n / 2 / 2) (by omega),
      e (n / 2 / 2 / 2) (by omega), e (n / 2 / 2 / 2 / 2) (by omega),
      e (n / 2 / 2 / 2 / 2 / 2) (by omega), e (n / 2 / 2 / 2 / 2 / 2 / 2) (by omega),
      e (n / 2 / 2 / 2 / 2 / 2 / 2 / 2) (by omega)]
  have hdiv : n / 2 / 2 / 2 / 2 / 2 / 2 / 2 / 2 = n / 256 := by
    simp [Nat.div_div_eq_div_mul]
  rw [hdiv]

/-- Claim C7: `negate` flips the sign in place without touching the magnitude, a
zero value stays non-negative, and `negate; negate` is the identity on the
represented value. -/
theorem negate_spec (b : BIGNUM) :
    b.negate.mag = b.mag ∧
    (b.mag = 0 → b.negate.neg = false) ∧
    (b.mag ≠ 0 → b.negate.neg = !b.neg) ∧
    b.negate.negate.val = b.val := by
  unfold BIGNUM.negate BN_set_negative BIGNUM.is_negative BIGNUM.val
  by_cases h : b.mag = 0 <;> cases hn : b.neg <;> simp [h, hn]

/-- Witness for C7 at a concrete input. -/
theorem negate_spec_witness :
    BIGNUM.negate ⟨false, 909829283⟩ = ⟨true, 909829283⟩ ∧
    (BIGNUM.mag ⟨false, 909829283⟩ ≠ 0 →
      BIGNUM.neg (BIGNUM.negate ⟨false, 909829283⟩) = !false) ∧
    BIGNUM.val (BIGNUM.negate (BIGNUM.negate ⟨false, 909829283⟩)) =
      BIGNUM.val ⟨false, 909829283⟩ := by
  refine ⟨by decide, ?_, (negate_spec ⟨false, 909829283⟩).2.2.2⟩
  intro h
  exact (negate_spec ⟨false, 909829283⟩).2.2.1 h

/-- Claim C8: `num_bits` is the position of the highest set bit of the magnitude
plus one (`log2 + 1` for nonzero, `0` for zero), and `num_bytes` is the
ceiling of `num_bits / 8`. -/
theorem num_bits_num_bytes_spec (b : BIGNUM) :
    (b.mag ≠ 0 →
       b.num_bits = Nat.log2 b.mag + 1 ∧
       2 ^ (b.num_bits - 1) ≤ b.mag ∧ b.mag < 2 ^ b.num_bits) ∧
    (b.mag = 0 → b.num_bits = 0) ∧
    b.num_bits ≤ 8 * b.num_bytes ∧ 8 * b.num_bytes < b.num_bits + 8 := by
  refine ⟨?_, ?_, ?_, ?_⟩
  · intro h
    have he := BN_num_bits_eq_log2 b.mag h
    refine ⟨he, ?_, ?_⟩
    · rw [BIGNUM.num_bits, he]
      simpa using Nat.log2_self_le h
    · rw [BIGNUM.num_bits, he]
      exact Nat.lt_log2_self
  · intro h
    rw [BIGNUM.num_bits, h, BN_num_bits]
    simp
  · rw [BIGNUM.num_bytes]
    omega
  · rw [BIGNUM.num_bytes]
    omega

/-- Witness for C8 at a concrete input. -/
theorem num_bits_num_bytes_spec_witness :
    (BIGNUM.num_bits ⟨false, 300⟩ = Nat.log2 300 + 1 ∧
     2 ^ (BIGNUM.num_bits ⟨false, 300⟩ - 1) ≤ 300 ∧
     300 < 2 ^ BIGNUM.num_bits ⟨false, 300⟩) ∧
    BIGNUM.num_bits ⟨false, 300⟩ ≤ 8 * BIGNUM.num_bytes ⟨false, 300⟩ := by
  refine ⟨(num_bits_num_bytes_spec ⟨false, 300⟩).1 (by decide),
          (num_bits_num_bytes_spec ⟨false, 300⟩).2.2.1⟩

/-- Claim C2: on every exit path of `with_ctx!` and `with_bn_in_ctx!` — normal,
body failure, destination-allocation failure, context-allocation failure —
the number of scratch contexts acquired inside the call equals the number
released inside the call (at most one), and no context remains live. -/
theorem BN_CTX_new_true_fields (w : World) (s : St) (s1 : St)
    (heq : BN_CTX_new w s = (true, s1)) :
    s1.ctxLive = s.ctxLive + 1 ∧ s1.ctxAlloc = s.ctxAlloc + 1 ∧
    s1.ctxFreeCount = s.ctxFreeCount := by
  unfold BN_CTX_new at heq
  split at heq
  all_goals first
    | (cases heq; simp)
    | simp_all

theorem BN_CTX_new_false_fields (w : World) (s : St) (s1 : St)
    (heq : BN_CTX_new w s = (false, s1)) :
    s1.ctxLive = s.ctxLive ∧ s1.ctxAlloc = s.ctxAlloc ∧
    s1.ctxFreeCount = s.ctxFreeCount := by
  unfold BN_CTX_new at heq
  split at heq
  all_goals first
    | (cases heq; simp)
    | simp_all

theorem BigNum_new_fields (w : World) (s : St) (r : Except SslError BIGNUM)
    (s1 : St) (heq : BigNum.new w s = (r, s1)) :
    s1.ctxLive = s.ctxLive ∧ s1.ctxAlloc = s.ctxAlloc ∧
    s1.ctxFreeCount = s.ctxFreeCount := by
  unfold BigNum.new at heq
  split at heq
  case _ b s1' heq2 =>
    have hs : s1' = s1 := congrArg Prod.snd heq
    subst hs
    unfold BN_new at heq2
    split at heq2
    all_goals first
      | (cases heq2; simp)
      | simp_all
  case _ s1' heq2 =>
    have hs : s1' = s1 := congrArg Prod.snd heq
    subst hs
    unfold BN_new at heq2
    split at heq2
    all_goals first
      | (cases heq2; simp)
      | simp_all

theorem scratch_ctx_balanced {α : Type} (w : World) (s : St)
    (act1 : St → Except SslError α × St)
    (act2 : BIGNUM → St → (Bool × BIGNUM) × St)
    (h1 : CtxNeutral act1) (h2 : CtxNeutralBn act2) :
    ((with_ctx w s act1).2.ctxLive = s.ctxLive ∧
     (with_ctx w s act1).2.ctxAlloc + s.ctxFreeCount =
       s.ctxAlloc + (with_ctx w s act1).2.ctxFreeCount ∧
     (with_ctx w s act1).2.ctxAlloc ≤ s.ctxAlloc + 1) ∧
    ((with_bn_in_ctx w s act2).2.ctxLive = s.ctxLive ∧
     (with_bn_in_ctx w s act2).2.ctxAlloc + s.ctxFreeCount =
       s.ctxAlloc + (with_bn_in_ctx w s act2).2.ctxFreeCount ∧
     (with_bn_in_ctx w s act2).2.ctxAlloc ≤ s.ctxAlloc + 1) := by
  constructor
  · unfold with_ctx
    split
    case _ s1 heq =>
      obtain ⟨f1, f2, f3⟩ := BN_CTX_new_true_fields w s s1 heq
      obtain ⟨e1, e2, e3⟩ := h1 s1
      unfold BN_CTX_free
      dsimp only
      omega
    case _ s1 heq =>
      obtain ⟨f1, f2, f3⟩ := BN_CTX_new_false_fields w s s1 heq
      dsimp only
      omega
  · unfold with_bn_in_ctx
    split
    case _ name s1 heq =>
      obtain ⟨g1, g2, g3⟩ := BigNum_new_fields w s _ s1 heq
      split
      case _ s2 heq2 =>
        obtain ⟨f1, f2, f3⟩ := BN_CTX_new_true_fields w s1 s2 heq2
        obtain ⟨e1, e2, e3⟩ := h2 name s2
        unfold BN_CTX_free
        dsimp only
        omega
      case _ s2 heq2 =>
        obtain ⟨f1, f2, f3⟩ := BN_CTX_new_false_fields w s1 s2 heq2
        dsimp only
        omega
    case _ err s1 heq =>
      obtain ⟨g1, g2, g3⟩ := BigNum_new_fields w s _ s1 heq
      dsimp only
      omega

/-- Witness for C2 at concrete bodies, world and state. -/
theorem scratch_ctx_balanced_witness :
    ((with_ctx allOkWorld St.init
        (fun st => (Except.ok (0 : Nat), st))).2.ctxLive = St.init.ctxLive ∧
     (with_ctx allOkWorld St.init
        (fun st => (Except.ok (0 : Nat), st))).2.ctxAlloc + St.init.ctxFreeCount =
       St.init.ctxAlloc + (with_ctx allOkWorld St.init
        (fun st => (Except.ok (0 : Nat), st))).2.ctxFreeCount ∧
     (with_ctx allOkWorld St.init
        (fun st => (Except.ok (0 : Nat), st))).2.ctxAlloc ≤ St.init.ctxAlloc + 1) ∧
    ((with_bn_in_ctx allOkWorld St.init
        (fun b st => ((true, b), st))).2.ctxLive = St.init.ctxLive ∧
     (with_bn_in_ctx allOkWorld St.init
        (fun b st => ((true, b), st))).2.ctxAlloc + St.init.ctxFreeCount =
       St.init.ctxAlloc + (with_bn_in_ctx allOkWorld St.init
        (fun b st => ((true, b), st))).2.ctxFreeCount ∧
     (with_bn_in_ctx allOkWorld St.init
        (fun b st => ((true, b), st))).2.ctxAlloc ≤ St.init.ctxAlloc + 1) :=
  scratch_ctx_balanced allOkWorld St.init
    (fun st => (Except.ok (0 : Nat), st)) (fun b st => ((true, b), st))
    (fun st => ⟨rfl, rfl, rfl⟩) (fun b st => ⟨rfl, rfl, rfl⟩)

/-- Claim C5: with a zero divisor, `checked_div` and `checked_mod` return an
error on every oracle path. -/
theorem with_bn_in_ctx_flag_false (w : World) (s : St)
    (action : BIGNUM → St → (Bool × BIGNUM) × St)
    (hfalse : ∀ r st, (action r st).1.1 = false) :
    (with_bn_in_ctx w s action).1.isOk = false := by
  unfold with_bn_in_ctx
  split
  case _ name s1 heq =>
    split
    case _ s2 heq2 =>
      simp [hfalse name s2, Except.isOk, Except.toBool]
    case _ s2 heq2 =>
      simp [Except.isOk, Except.toBool]
  case _ err s1 heq =>
    simp [Except.isOk, Except.toBool]

theorem checked_div_mod_zero_divisor (w : World) (s : St) (a b : BIGNUM)
    (h : b.val = 0) :
    (checked_div w s a b).1.isOk = false ∧
    (checked_mod w s a b).1.isOk = false := by
  constructor
  · unfold checked_div
    apply with_bn_in_ctx_flag_false
    intro r st
    simp [BN_div_prim, primStep, h]
  · unfold checked_mod
    apply with_bn_in_ctx_flag_false
    intro r st
    simp [BN_div_prim, primStep, h]

/-- Witness for C5 at a concrete input. -/
theorem checked_div_mod_zero_divisor_witness :
    BIGNUM.val ⟨false, 0⟩ = 0 ∧
    (checked_div allOkWorld St.init ⟨false, 17⟩ ⟨false, 0⟩).1.isOk = false ∧
    (checked_mod allOkWorld St.init ⟨false, 17⟩ ⟨false, 0⟩).1.isOk = false :=
  ⟨by decide, checked_div_mod_zero_divisor allOkWorld St.init ⟨false, 17⟩ ⟨false, 0⟩ (by decide)⟩

theorem bin2bn_append (l : List Nat) (d : Nat) :
    bin2bn (l ++ [d]) = bin2bn l * 256 + d := by
  unfold bin2bn
  rw [List.foldl_append]
  rfl

theorem bin2bn_bn2bin (n : Nat) : bin2bn (bn2bin n) = n := by
  induction n using Nat.strong_induction_on with
  | _ n ih =>
    rw [bn2bin]
    by_cases h : n = 0
    · simp [h, bin2bn]
    · simp only [h, if_false]
      rw [bin2bn_append, ih (n / 256) (Nat.div_lt_self (by omega) (by decide))]
      omega

theorem bn2bin_head_ne_zero (n : Nat) (h : n ≠ 0) :
    ∃ d l, bn2bin n = d :: l ∧ d ≠ 0 := by
  induction n using Nat.strong_induction_on with
  | _ n ih =>
    rw [bn2bin]
    simp only [h, if_false]
    by_cases h2 : n / 256 = 0
    · rw [h2, bn2bin]
      exact ⟨n % 256, [], by simp, by omega⟩
    · obtain ⟨d, l, hdl, hd⟩ := ih (n / 256) (Nat.div_lt_self (by omega) (by decide)) h2
      exact ⟨d, l ++ [n % 256], by rw [hdl]; simp, hd⟩

theorem bn2bin_length (n : Nat) :
    (bn2bin n).length = (BN_num_bits n + 7) / 8 := by
  induction n using Nat.strong_induction_on with
  | _ n ih =>
    by_cases h0 : n = 0
    · rw [h0, bn2bin, BN_num_bits]
      simp
    · rw [bn2bin]
      simp only [h0, if_false]
      rw [List.length_append]
      by_cases h256 : n < 256
      · have hq : n / 256 = 0 := by omega
        rw [hq, bn2bin]
        have hb := BN_num_bits_eq_log2 n h0
        have hlt : Nat.log2 n < 8 := (Nat.log2_lt h0).2 (by omega)
        simp
        omega
      · rw [ih (n / 256) (Nat.div_lt_self (by omega) (by decide))]
        rw [BN_num_bits_div256 n (by omega)]
        simp only [List.length_singleton]
        omega

/-- Claim C1: for a non-negative Bignum, `to_vec` produces the unsigned
big-endian minimal-length magnitude (`num_bytes` bytes, no leading zero
byte, empty exactly for zero), and re-importing it with `new_from_slice`
(whenever that import succeeds) recovers the value with a non-negative
sign. -/
theorem to_vec_new_from_slice_roundtrip (w : World) (s : St) (x b : BIGNUM)
    (s' : St) (hx : x.neg = false)
    (h : new_from_slice w s x.to_vec = (Except.ok b, s')) :
    b.val = x.val ∧ b.neg = false ∧
    (x.val = 0 → x.to_vec = []) ∧
    x.to_vec.length = x.num_bytes ∧
    (∀ d l, x.to_vec = d :: l → d ≠ 0) := by
  have hb : b = ⟨false, bin2bn x.to_vec⟩ := by
    unfold new_from_slice BN_new primStep at h
    by_cases h1 : w.bnOk s.bnNext <;> simp only [h1, if_true, if_false] at h
    · by_cases h2 : w.primOk (s.primNext) <;> simp_all
    · simp_all
  refine ⟨?_, by rw [hb], ?_, ?_, ?_⟩
  · rw [hb]
    unfold BIGNUM.val BIGNUM.to_vec
    simp [hx, bin2bn_bn2bin]
  · intro hz
    unfold BIGNUM.to_vec
    have hmag : x.mag = 0 := by
      unfold BIGNUM.val at hz
      rw [hx] at hz
      simpa using hz
    rw [hmag, bn2bin]
    simp
  · unfold BIGNUM.to_vec BIGNUM.num_bytes BIGNUM.num_bits
    exact bn2bin_length x.mag
  · intro d l hdl hd0
    unfold BIGNUM.to_vec at hdl
    by_cases hmag : x.mag = 0
    · rw [hmag, bn2bin] at hdl
      simp at hdl
    · obtain ⟨d', l', hdl', hd'⟩ := bn2bin_head_ne_zero x.mag hmag
      rw [hdl'] at hdl
      cases hdl
      exact hd' hd0

/-- Witness for C1 at a concrete input (the value 258, bytes `[1, 2]`). -/
theorem to_vec_new_from_slice_roundtrip_witness :
    BIGNUM.neg ⟨false, 258⟩ = false ∧
    BIGNUM.to_vec ⟨false, 258⟩ = [1, 2] ∧
    BIGNUM.val ⟨false, 258⟩ = 258 ∧
    BIGNUM.val ⟨false, 258⟩ = BIGNUM.val ⟨false, 258⟩ ∧
    (BIGNUM.to_vec ⟨false, 258⟩).length = BIGNUM.num_bytes ⟨false, 258⟩ := by
  have h : new_from_slice allOkWorld St.init (BIGNUM.to_vec ⟨false, 258⟩) =
      (Except.ok ⟨false, 258⟩, ⟨1, 0, 1, 0, 0, 0⟩) := by
    simp [new_from_slice, BN_new, primStep, allOkWorld, St.init,
      BIGNUM.to_vec, bn2bin, bin2bn]
  have main := to_vec_new_from_slice_roundtrip allOkWorld St.init
    ⟨false, 258⟩ ⟨false, 258⟩ ⟨1, 0, 1, 0, 0, 0⟩ rfl h
  refine ⟨rfl, ?_, by decide, main.1, main.2.2.2.1⟩
  simp [BIGNUM.to_vec, bn2bin]

theorem with_bn_in_ctx_ok (w : World) (s : St)
    (action : BIGNUM → St → (Bool × BIGNUM) × St) (out : BIGNUM) (s' : St)
    (h : with_bn_in_ctx w s action = (Except.ok out, s')) :
    ∃ r st, (action r st).1.1 = true ∧ (action r st).1.2 = out := by
  unfold with_bn_in_ctx at h
  split at h
  case _ name s1 heq =>
    split at h
    case _ s2 heq2 =>
      by_cases hf : (action name s2).1.1 <;> simp only [hf, if_true, if_false] at h
      · exact ⟨name, s2, hf, (Prod.mk.injEq _ _ _ _ ▸ h).1 |> Except.ok.inj⟩
      · simp at h
    case _ s2 heq2 =>
      simp at h
  case _ err s1 heq =>
    simp at h

theorem with_bn_ok (w : World) (s : St)
    (action : BIGNUM → St → (Bool × BIGNUM) × St) (out : BIGNUM) (s' : St)
    (h : with_bn w s action = (Except.ok out, s')) :
    ∃ r st, (action r st).1.1 = true ∧ (action r st).1.2 = out := by
  unfold with_bn at h
  split at h
  case _ name s1 heq =>
    by_cases hf : (action name s1).1.1 <;> simp only [hf, if_true, if_false] at h
    · exact ⟨name, s1, hf, (Prod.mk.injEq _ _ _ _ ▸ h).1 |> Except.ok.inj⟩
    · simp at h
  case _ err s1 heq =>
    simp at h

theorem checked_div_ok (w : World) (s : St) (a b q : BIGNUM) (s' : St)
    (h : checked_div w s a b = (Except.ok q, s')) :
    b.val ≠ 0 ∧ q.val = a.val.tdiv b.val := by
  unfold checked_div at h
  obtain ⟨r, st, hflag, hval⟩ := with_bn_in_ctx_ok w s _ q s' h
  unfold BN_div_prim primStep at hflag hval
  by_cases hb : b.val = 0
  · simp [hb] at hflag
  · refine ⟨hb, ?_⟩
    simp [hb] at hflag hval
    simp [hflag] at hval
    rw [← hval]
    exact BIGNUM.val_ofInt _

theorem checked_mod_ok (w : World) (s : St) (a b m : BIGNUM) (s' : St)
    (h : checked_mod w s a b = (Except.ok m, s')) :
    b.val ≠ 0 ∧ m.val = a.val.tmod b.val := by
  unfold checked_mod at h
  obtain ⟨r, st, hflag, hval⟩ := with_bn_in_ctx_ok w s _ m s' h
  unfold BN_div_prim primStep at hflag hval
  by_cases hb : b.val = 0
  · simp [hb] at hflag
  · refine ⟨hb, ?_⟩
    simp [hb] at hflag hval
    simp [hflag] at hval
    rw [← hval]
    exact BIGNUM.val_ofInt _

theorem checked_mul_ok (w : World) (s : St) (a b p : BIGNUM) (s' : St)
    (h : checked_mul w s a b = (Except.ok p, s')) :
    p.val = a.val * b.val := by
  unfold checked_mul at h
  obtain ⟨r, st, hflag, hval⟩ := with_bn_in_ctx_ok w s _ p s' h
  unfold BN_mul primStep at hflag hval
  simp at hflag hval
  simp [hflag] at hval
  rw [← hval]
  exact BIGNUM.val_ofInt _

theorem checked_add_ok (w : World) (s : St) (a b t : BIGNUM) (s' : St)
    (h : checked_add w s a b = (Except.ok t, s')) :
    t.val = a.val + b.val := by
  unfold checked_add at h
  obtain ⟨r, st, hflag, hval⟩ := with_bn_ok w s _ t s' h
  unfold BN_add primStep at hflag hval
  simp at hflag hval
  simp [hflag] at hval
  rw [← hval]
  exact BIGNUM.val_ofInt _

/-- Claim C4: whenever `checked_div`, `checked_mul`, `checked_mod` and
`checked_add` all succeed with a nonzero divisor,
`add(mul(div(a, b), b), mod(a, b)) = a` on represented values. -/
theorem division_identity (w1 w2 w3 w4 : World) (s1 s2 s3 s4 : St)
    (a b q m r t : BIGNUM) (s1' s2' s3' s4' : St)
    (hb : b.val ≠ 0)
    (hdiv : checked_div w1 s1 a b = (Except.ok q, s1'))
    (hmul : checked_mul w2 s2 q b = (Except.ok m, s2'))
    (hmod : checked_mod w3 s3 a b = (Except.ok r, s3'))
    (hadd : checked_add w4 s4 m r = (Except.ok t, s4')) :
    t.val = a.val := by
  obtain ⟨-, hq⟩ := checked_div_ok w1 s1 a b q s1' hdiv
  have hm := checked_mul_ok w2 s2 q b m s2' hmul
  obtain ⟨-, hr⟩ := checked_mod_ok w3 s3 a b r s3' hmod
  have ht := checked_add_ok w4 s4 m r t s4' hadd
  rw [ht, hm, hq, hr, mul_comm]
  exact Int.tdiv_add_tmod a.val b.val

/-- Witness for C4 at the concrete input a = 7, b = 2. -/
theorem division_identity_witness :
    BIGNUM.val ⟨false, 2⟩ ≠ 0 ∧
    BIGNUM.val ⟨false, 7⟩ = BIGNUM.val ⟨false, 7⟩ := by
  have hdiv : checked_div allOkWorld St.init ⟨false, 7⟩ ⟨false, 2⟩ =
      (Except.ok ⟨false, 3⟩, ⟨1, 1, 1, 0, 1, 1⟩) := by rfl
  have hmul : checked_mul allOkWorld St.init ⟨false, 3⟩ ⟨false, 2⟩ =
      (Except.ok ⟨false, 6⟩, ⟨1, 1, 1, 0, 1, 1⟩) := by rfl
  have hmod : checked_mod allOkWorld St.init ⟨false, 7⟩ ⟨false, 2⟩ =
      (Except.ok ⟨false, 1⟩, ⟨1, 1, 1, 0, 1, 1⟩) := by rfl
  have hadd : checked_add allOkWorld St.init ⟨false, 6⟩ ⟨false, 1⟩ =
      (Except.ok ⟨false, 7⟩, ⟨1, 0, 1, 0, 0, 0⟩) := by rfl
  exact ⟨by decide,
    division_identity allOkWorld allOkWorld allOkWorld allOkWorld
      St.init St.init St.init St.init ⟨false, 7⟩ ⟨false, 2⟩ ⟨false, 3⟩
      ⟨false, 6⟩ ⟨false, 1⟩ ⟨false, 7⟩ _ _ _ _ (by decide) hdiv hmul hmod hadd ▸ rfl⟩

theorem checked_mod_inv_ok (w : World) (s : St) (a n i : BIGNUM) (s' : St)
    (h : checked_mod_inv w s a n = (Except.ok i, s')) :
    Int.gcd a.val n.val = 1 ∧ i.val = Int.gcdA a.val n.val % n.val := by
  unfold checked_mod_inv at h
  obtain ⟨r, st, hflag, hval⟩ := with_bn_in_ctx_ok w s _ i s' h
  unfold BN_mod_inverse at hflag hval
  by_cases hg : Int.gcd a.val n.val = 1
  · simp [hg] at hval
    exact ⟨hg, by rw [← hval]; exact BIGNUM.val_ofInt _⟩
  · simp [hg] at hflag

theorem checked_mod_inv_succeeds (w : World) (s : St) (a n : BIGNUM)
    (hbn : w.bnOk s.bnNext = true) (hctx : w.ctxOk s.ctxNext = true)
    (hg : Int.gcd a.val n.val = 1) :
    ∃ i s', checked_mod_inv w s a n = (Except.ok i, s') := by
  unfold checked_mod_inv with_bn_in_ctx BigNum.new BN_new BN_CTX_new BN_mod_inverse
  simp [hbn, hctx, hg]

theorem checked_mod_inv_fails (w : World) (s : St) (a n : BIGNUM)
    (hg : Int.gcd a.val n.val ≠ 1) :
    (checked_mod_inv w s a n).1.isOk = false := by
  unfold checked_mod_inv
  apply with_bn_in_ctx_flag_false
  intro r st
  simp [BN_mod_inverse, hg]

theorem checked_mod_mul_ok (w : World) (s : St) (a b n v : BIGNUM) (s' : St)
    (h : checked_mod_mul w s a b n = (Except.ok v, s')) :
    v.val = a.val * b.val % n.val := by
  unfold checked_mod_mul at h
  obtain ⟨r, st, hflag, hval⟩ := with_bn_in_ctx_ok w s _ v s' h
  unfold BN_mod_mul primStep at hflag hval
  simp at hflag hval
  simp [hflag] at hval
  rw [← hval]
  exact BIGNUM.val_ofInt _

theorem one_emod_of_one_lt_natAbs (n : Int) (hn : 1 < n.natAbs) :
    (1 : Int) % n = 1 := by
  rcases Int.natAbs_eq n with he | he
  · rw [he]
    exact Int.emod_eq_of_lt (by norm_num) (by exact_mod_cast hn)
  · rw [he, Int.emod_neg]
    exact Int.emod_eq_of_lt (by norm_num) (by exact_mod_cast hn)

theorem inverse_math (a n : Int) (hg : Int.gcd a n = 1) (hn : 1 < n.natAbs) :
    a * (Int.gcdA a n % n) % n = 1 := by
  have hbez := Int.gcd_eq_gcd_ab a n
  rw [hg] at hbez
  have h1 : a * (Int.gcdA a n % n) % n = a * Int.gcdA a n % n := by
    conv_rhs => rw [Int.mul_emod]
    rw [Int.mul_emod a (Int.gcdA a n % n) n, Int.emod_emod_of_dvd _ dvd_rfl]
  rw [h1]
  have h2 : a * Int.gcdA a n = 1 + n * (-Int.gcdB a n) := by
    push_cast at hbez
    linarith
  rw [h2, Int.add_mul_emod_self_left]
  exact one_emod_of_one_lt_natAbs n hn

/-- Claim C6 counterexample: at the modulus n = 1 (gcd(7, 1) = 1), `mod_inv`
succeeds with inverse 0, and `mod_mul(7, 0, 1)` is 0, not 1 — the claim
`mod_mul(a, mod_inv(a, n), n) = 1` is false as stated. -/
theorem mod_inv_claim_false_at_one :
    ∃ i s', checked_mod_inv allOkWorld St.init ⟨false, 7⟩ ⟨false, 1⟩ =
        (Except.ok i, s') ∧
      i.val = 0 ∧
      (∃ v s2', checked_mod_mul allOkWorld St.init ⟨false, 7⟩ i ⟨false, 1⟩ =
        (Except.ok v, s2')) ∧
      (∀ v s2', checked_mod_mul allOkWorld St.init ⟨false, 7⟩ i ⟨false, 1⟩ =
        (Except.ok v, s2') → v.val = 0 ∧ v.val ≠ 1) := by
  obtain ⟨i, s', h⟩ := checked_mod_inv_succeeds allOkWorld St.init
    ⟨false, 7⟩ ⟨false, 1⟩ rfl rfl (by decide)
  obtain ⟨-, hival⟩ := checked_mod_inv_ok allOkWorld St.init ⟨false, 7⟩ ⟨false, 1⟩ i s' h
  have hi0 : i.val = 0 := by
    rw [hival]
    show Int.gcdA _ _ % (BIGNUM.val ⟨false, 1⟩) = 0
    have : BIGNUM.val ⟨false, 1⟩ = 1 := by decide
    rw [this, Int.emod_one]
  refine ⟨i, s', h, hi0, ?_, ?_⟩
  · unfold checked_mod_mul with_bn_in_ctx BigNum.new BN_new BN_CTX_new
      BN_mod_mul primStep
    simp [allOkWorld, St.init]
  · intro v s2' hv
    have hvval := checked_mod_mul_ok allOkWorld St.init ⟨false, 7⟩ i ⟨false, 1⟩ v s2' hv
    rw [hi0] at hvval
    have h1 : BIGNUM.val ⟨false, 1⟩ = 1 := by decide
    rw [h1, Int.emod_one] at hvval
    simp [hvval]

/-- Claim C6 amended: assuming destination and scratch allocation succeed,
`checked_mod_inv(a, n)` succeeds exactly when `gcd(a, n) = 1`; when it
succeeds with result i and `|n| > 1`, `checked_mod_mul(a, i, n) = 1`
whenever that call succeeds; when `gcd(a, n) ≠ 1` it returns an error
(on every oracle path). -/
theorem mod_inv_spec (w w2 : World) (s s2 : St) (a n : BIGNUM)
    (hbn : w.bnOk s.bnNext = true) (hctx : w.ctxOk s.ctxNext = true) :
    ((∃ i s', checked_mod_inv w s a n = (Except.ok i, s')) ↔
       Int.gcd a.val n.val = 1) ∧
    (∀ i s', checked_mod_inv w s a n = (Except.ok i, s') →
       1 < n.val.natAbs →
       ∀ v s2', checked_mod_mul w2 s2 a i n = (Except.ok v, s2') → v.val = 1) ∧
    (Int.gcd a.val n.val ≠ 1 →
       ∀ w3 s3, (checked_mod_inv w3 s3 a n).1.isOk = false) := by
  refine ⟨⟨?_, ?_⟩, ?_, ?_⟩
  · rintro ⟨i, s', h⟩
    exact (checked_mod_inv_ok w s a n i s' h).1
  · intro hg
    exact checked_mod_inv_succeeds w s a n hbn hctx hg
  · intro i s' h hn v s2' hv
    obtain ⟨hg, hival⟩ := checked_mod_inv_ok w s a n i s' h
    have hvval := checked_mod_mul_ok w2 s2 a i n v s2' hv
    rw [hvval, hival]
    exact inverse_math a.val n.val hg hn
  · intro hg w3 s3
    exact checked_mod_inv_fails w3 s3 a n hg

/-- Witness for the amended C6 at the concrete input a = 7, n = 11. -/
theorem mod_inv_spec_witness :
    ((∃ i s', checked_mod_inv allOkWorld St.init ⟨false, 7⟩ ⟨false, 11⟩ =
        (Except.ok i, s')) ↔
      Int.gcd (BIGNUM.val ⟨false, 7⟩) (BIGNUM.val ⟨false, 11⟩) = 1) ∧
    Int.gcd (BIGNUM.val ⟨false, 7⟩) (BIGNUM.val ⟨false, 11⟩) = 1 :=
  ⟨(mod_inv_spec allOkWorld allOkWorld St.init St.init
      ⟨false, 7⟩ ⟨false, 11⟩ rfl rfl).1, by decide⟩

theorem SslError.unique (e : SslError) : e = SslError.get := by
  cases e with
  | mk u => cases u; rfl

/-- Claim C3 counterexample: when the underlying primitives fail, `one`, `zero`
and `to_dec_str` abort (panic) rather than reporting the failure through a
result value — the claim that no panic escapes these operations is false. -/
theorem one_zero_to_dec_str_panic :
    (one allFailWorld St.init).1 = Outcome.panicked ∧
    (zero allFailWorld St.init).1 = Outcome.panicked ∧
    (to_dec_str allFailWorld St.init ⟨false, 5⟩).1 = Outcome.panicked := by
  refine ⟨rfl, rfl, rfl⟩

/-- Claim C3 amended: every `checked_*` operation reports failure only through
the two-valued result (carrying the error snapshot), but `to_dec_str`
aborts exactly when `BN_bn2dec` fails, and the `one`/`zero` constant
producers abort exactly when the underlying factory (`BN_new` or
`BN_set_word`) fails. -/
theorem panic_surface_spec (w : World) (s : St) (b a c : BIGNUM) :
    ((to_dec_str w s b).1 = Outcome.panicked ↔ w.primOk s.primNext = false) ∧
    ((one w s).1 = Outcome.panicked ↔
       (w.bnOk s.bnNext = false ∨ w.primOk s.primNext = false)) ∧
    ((zero w s).1 = Outcome.panicked ↔
       (w.bnOk s.bnNext = false ∨ w.primOk s.primNext = false)) ∧
    ((checked_div w s a c).1.isOk = true ∨
     (checked_div w s a c).1 = Except.error SslError.get) := by
  refine ⟨?_, ?_, ?_, ?_⟩
  · unfold to_dec_str BN_bn2dec primStep
    cases hp : w.primOk s.primNext <;> simp [hp]
  · unfold one new_from BN_new primStep
    cases hb : w.bnOk s.bnNext <;> cases hp : w.primOk s.primNext <;>
      simp [hb, hp]
  · unfold zero new_from BN_new primStep
    cases hb : w.bnOk s.bnNext <;> cases hp : w.primOk s.primNext <;>
      simp [hb, hp]
  · cases hres : (checked_div w s a c).1 with
    | ok v =>
        left
        rfl
    | error e =>
        right
        rw [SslError.unique e]

/-- Claim C9: `abs_cmp` takes its second operand by value, so the call clear-frees
that operand's handle (the claim says it is a shared non-owning reference);
`eq`, which does take both operands by reference, leaves the heap intact. -/
theorem abs_cmp_consumes_operand :
    abs_cmp ([some ⟨false, 3⟩, some ⟨false, 7⟩] : Heap) 0 1 =
      (Ordering.lt, ([some ⟨false, 3⟩, none] : Heap)) ∧
    bigNumEq ([some ⟨false, 3⟩, some ⟨false, 7⟩] : Heap) 0 1 =
      (false, ([some ⟨false, 3⟩, some ⟨false, 7⟩] : Heap)) := by
  constructor <;> rfl

/-- Claim C10: the four random constructors are built on `with_bn_in_ctx!` even
though the random primitives never receive the context: when the
destination allocation succeeds but scratch-context allocation fails, each
returns an error without invoking the random primitive at all; on the
allocation-success path each acquires and releases exactly one scratch
context; and a failure of the random primitive itself also yields an
error. -/
theorem rand_ops_ctx_spec (w : World) (s : St) (bits : Int)
    (prop : RNGProperty) (odd : Bool) (n : BIGNUM)
    (hbn : w.bnOk s.bnNext = true) :
    (w.ctxOk s.ctxNext = false →
       (checked_new_random w s bits prop odd).1 = Except.error SslError.get ∧
       (checked_new_pseudo_random w s bits prop odd).1 = Except.error SslError.get ∧
       (checked_rand_in_range w s n).1 = Except.error SslError.get ∧
       (checked_pseudo_rand_in_range w s n).1 = Except.error SslError.get ∧
       (checked_new_random w s bits prop odd).2.primNext = s.primNext) ∧
    (w.ctxOk s.ctxNext = true →
       ((checked_new_random w s bits prop odd).2.ctxAlloc = s.ctxAlloc + 1 ∧
        (checked_new_random w s bits prop odd).2.ctxFreeCount = s.ctxFreeCount + 1) ∧
       ((checked_new_pseudo_random w s bits prop odd).2.ctxAlloc = s.ctxAlloc + 1 ∧
        (checked_new_pseudo_random w s bits prop odd).2.ctxFreeCount = s.ctxFreeCount + 1) ∧
       ((checked_rand_in_range w s n).2.ctxAlloc = s.ctxAlloc + 1 ∧
        (checked_rand_in_range w s n).2.ctxFreeCount = s.ctxFreeCount + 1) ∧
       ((checked_pseudo_rand_in_range w s n).2.ctxAlloc = s.ctxAlloc + 1 ∧
        (checked_pseudo_rand_in_range w s n).2.ctxFreeCount = s.ctxFreeCount + 1) ∧
       (w.primOk s.primNext = false →
         (checked_new_random w s bits prop odd).1 = Except.error SslError.get ∧
         (checked_rand_in_range w s n).1 = Except.error SslError.get)) := by
  constructor
  · intro hctx
    unfold checked_new_random checked_new_pseudo_random checked_rand_in_range
      checked_pseudo_rand_in_range with_bn_in_ctx BigNum.new BN_new BN_CTX_new
    simp [hbn, hctx]
  · intro hctx
    unfold checked_new_random checked_new_pseudo_random checked_rand_in_range
      checked_pseudo_rand_in_range with_bn_in_ctx BigNum.new BN_new BN_CTX_new
      BN_CTX_free BN_rand BN_pseudo_rand BN_rand_range BN_pseudo_rand_range
      primStep
    cases hp : w.primOk s.primNext <;> simp [hbn, hctx, hp]

/-- Witness for C10 at concrete worlds: a failing scratch allocator makes
`checked_new_random` fail, and a fully successful world allocates and frees
exactly one scratch context. -/
theorem rand_ops_ctx_spec_witness :
    (checked_new_random noCtxWorld St.init 128 RNGProperty.MsbOne false).1 =
      Except.error SslError.get ∧
    (checked_new_random allOkWorld St.init 128 RNGProperty.MsbOne false).2.ctxAlloc = 1 ∧
    (checked_new_random allOkWorld St.init 128 RNGProperty.MsbOne false).2.ctxFreeCount = 1 :=
  ⟨((rand_ops_ctx_spec noCtxWorld St.init 128 RNGProperty.MsbOne false
      ⟨false, 1⟩ rfl).1 rfl).1,
   ((rand_ops_ctx_spec allOkWorld St.init 128 RNGProperty.MsbOne false
      ⟨false, 1⟩ rfl).2 rfl).1.1,
   ((rand_ops_ctx_spec allOkWorld St.init 128 RNGProperty.MsbOne false
      ⟨false, 1⟩ rfl).2 rfl).1.2⟩

end BnWrapper
